import Mathlib

/-!
Shallow embedding of the moulin builder modules
(src/moulin/builders/agl.py and src/moulin/builders/android_kernel.py)
together with the collaborator interfaces they consume, and theorems about
the build-graph emission behaviour of the two Builder Variants.

Exceptions raised by the Python code are modelled with the `Except` monad;
calls into the external graph writer are modelled as an append-only log of
`NinjaOp` values threaded through the emitting operations.
-/

namespace Moulin

/-- Source-location marker attached to every configuration node. -/
structure Mark where
  line : Nat
  column : Nat
deriving DecidableEq

/-- Error raised while processing configuration, carrying a location marker
(moulin.yaml_helpers.YAMLProcessingError, consumed by agl.py line 66). -/
structure YAMLProcessingError where
  message : String
  mark : Mark
deriving DecidableEq

/-- Modelled from the spec: the Configuration View (moulin.yaml_wrapper.YamlValue
is not under src/; the spec describes typed accessors, list iteration and
per-element type predicates). A node is a scalar string, a sequence of nodes,
or a mapping from keys to nodes; every node carries a source mark. -/
inductive YamlValue where
  | scalar (s : String) (mark : Mark)
  | list (items : List YamlValue) (mark : Mark)
  | mapping (entries : List (String × YamlValue)) (mark : Mark)

/-- Source mark of a node. -/
def YamlValue.mark : YamlValue → Mark
  | .scalar _ m => m
  | .list _ m => m
  | .mapping _ m => m

/-- Type predicate: is this node a sequence (YamlValue.is_list in the wrapper). -/
def YamlValue.is_list : YamlValue → Bool
  | .list _ _ => true
  | _ => false

/-- Modelled from the spec: scalar accessor (`.as_str`); fails on non-scalar nodes. -/
def YamlValue.as_str : YamlValue → Except YAMLProcessingError String
  | .scalar s _ => .ok s
  | v => .error ⟨"Expected scalar value", v.mark⟩

/-- Lookup of a key among mapping entries, first match wins. -/
def findPairs (key : String) : List (String × YamlValue) → Option YamlValue
  | [] => none
  | (k, x) :: rest => if k = key then some x else findPairs key rest

/-- Modelled from the spec: optional-key lookup (`conf.get(key, None)`); yields
none when the key is absent or the node is not a mapping. -/
def YamlValue.find (v : YamlValue) (key : String) : Option YamlValue :=
  match v with
  | .mapping es _ => findPairs key es
  | _ => none

/-- Modelled from the spec: get-a-string-or-default accessor
(`conf.get(key, dflt)`): the stored node when the key is present, otherwise a
scalar holding the default. -/
def YamlValue.get (v : YamlValue) (key : String) (dflt : String) : YamlValue :=
  match v.find key with
  | some node => node
  | none => .scalar dflt v.mark

/-- Modelled from the spec: get-a-required-field accessor (`conf[key]`); fails
with a location-bearing error when the key is absent. -/
def YamlValue.getReq (v : YamlValue) (key : String) : Except YAMLProcessingError YamlValue :=
  match v.find key with
  | some node => .ok node
  | none => .error ⟨"Key not found: " ++ key, v.mark⟩

/-- Modelled from the spec: list iteration (`for x in node`); fails on a
non-sequence node. -/
def YamlValue.items : YamlValue → Except YAMLProcessingError (List YamlValue)
  | .list xs _ => .ok xs
  | v => .error ⟨"Expected list value", v.mark⟩

/-- Positional lookup among the elements of a sequence node; running past the
end is a location-bearing error at the sequence's mark. -/
def idxList : List YamlValue → Nat → Mark → Except YAMLProcessingError YamlValue
  | [], _, m => .error ⟨"Index out of range", m⟩
  | x :: _, 0, _ => .ok x
  | _ :: xs, i + 1, m => idxList xs i m

/-- Modelled from the spec: positional indexing (`node[i]`); out-of-range
indexing is a configuration error (the spec calls an entry with fewer than
two scalar elements a configuration error). -/
def YamlValue.idx (v : YamlValue) (i : Nat) : Except YAMLProcessingError YamlValue :=
  match v with
  | .list xs m => idxList xs i m
  | _ => .error ⟨"Expected list value", v.mark⟩

/-- Does the string start with a path separator (posixpath absolute test). -/
def startsWithSep (s : String) : Bool := s.data.head? = some '/'

/-- Does the string end with a path separator. -/
def endsWithSep (s : String) : Bool := s.data.getLast? = some '/'

/-- Two-argument os.path.join for posix paths, as used by both builders. -/
def ospj (a b : String) : String :=
  if startsWithSep b then b
  else if a = "" || endsWithSep a then a ++ b
  else a ++ "/" ++ b

/-- Three-argument os.path.join (agl.py lines 112 and 135). -/
def ospj3 (a b c : String) : String := ospj (ospj a b) c

/-- Characters that need no quoting when embedded in a shell-style command. -/
def isSafeChar (c : Char) : Bool :=
  c.isAlphanum || c = '_' || c = '@' || c = '%' || c = '+' || c = '=' ||
    c = ':' || c = ',' || c = '.' || c = '/' || c = '-'

/-- Escape one character for safe embedding in a shell-style command. -/
def escapeChar (c : Char) : List Char :=
  if isSafeChar c then [c] else ['\\', c]

/-- Modelled from the spec: moulin.utils.escape is not under src/; the spec
requires external free-form strings reaching a command template to be quoted
defensively, so unsafe characters are backslash-escaped. On strings made of
safe characters (letters, digits, `=` and similar) this is the identity. -/
def escape (s : String) : String :=
  String.mk (s.data.foldr (fun c acc => escapeChar c ++ acc) [])

/-- Modelled from the spec: one registration with the Graph Emission Contract
(moulin.ninja_syntax.Writer is not under src/). Only the operations the
claims are about are modelled: build edges and the newline separator. A build
edge records outputs, rule name, inputs, and rule-variable bindings (the
`variables` keyword argument of the writer, here named `vars`). -/
inductive NinjaOp where
  | build (outputs : List String) (rule : String) (inputs : List String)
      (vars : List (String × String))
  | newline
deriving DecidableEq

/-- Recognizer for build-edge registrations in the emission log. -/
def isBuildEdge : NinjaOp → Bool
  | .build _ _ _ _ => true
  | .newline => false

/-- Boolean success test for an `Except` result. -/
def exceptIsOk : Except YAMLProcessingError α → Bool
  | .ok _ => true
  | .error _ => false

/-- Message of the shape error raised by the flattener (agl.py line 66; quote
marks of the original message around the word conf are elided). -/
def expArrayMsg : String := "Exptected array on conf node"

/-- Inner pairs of a nested group: `[(x[0].as_str, x[1].as_str) for x in entry]`
(agl.py line 68), evaluated left to right with the first error propagated. -/
def flattenGroup : List YamlValue → Except YAMLProcessingError (List (String × String))
  | [] => .ok []
  | x :: xs =>
    match x.idx 0 with
    | .error e => .error e
    | .ok x0 =>
      match x0.as_str with
      | .error e => .error e
      | .ok k =>
        match x.idx 1 with
        | .error e => .error e
        | .ok x1 =>
          match x1.as_str with
          | .error e => .error e
          | .ok v =>
            match flattenGroup xs with
            | .error e => .error e
            | .ok rest => .ok ((k, v) :: rest)

/-- Body of the flattening loop for one entry (agl.py lines 65 to 70): a
non-sequence entry is rejected with a shape error at its mark; an entry whose
first element is itself a sequence is a nested group and contributes every
inner pair; otherwise the entry itself is a single pair. -/
def flattenEntry (entry : YamlValue) : Except YAMLProcessingError (List (String × String)) :=
  if entry.is_list = false then .error ⟨expArrayMsg, entry.mark⟩
  else
    match entry.idx 0 with
    | .error e => .error e
    | .ok first =>
      if first.is_list then
        match entry.items with
        | .error e => .error e
        | .ok xs => flattenGroup xs
      else
        match first.as_str with
        | .error e => .error e
        | .ok k =>
          match entry.idx 1 with
          | .error e => .error e
          | .ok snd =>
            match snd.as_str with
            | .error e => .error e
            | .ok v => .ok [(k, v)]

/-- Sequential flattening loop over all entries (agl.py lines 64 to 70),
appending each entry's contribution in order; the first error aborts. -/
def flattenEntries : List YamlValue → Except YAMLProcessingError (List (String × String))
  | [] => .ok []
  | e :: rest =>
    match flattenEntry e with
    | .error err => .error err
    | .ok ps =>
      match flattenEntries rest with
      | .error err => .error err
      | .ok qs => .ok (ps ++ qs)

/-- The flattener `_flatten_yocto_conf` (agl.py lines 56 to 71): iterate the
conf node as a sequence and flatten one level of nesting. -/
def flatten_yocto_conf (conf : YamlValue) : Except YAMLProcessingError (List (String × String)) :=
  match conf.items with
  | .error e => .error e
  | .ok es => flattenEntries es

/-- The AGL Builder Variant (agl.py lines 74 to 143). Fields mirror the
attributes set by the constructor; the generator handle is modelled by
threading the emission log through the emitting operations instead. -/
structure AGLBuilder where
  conf : YamlValue
  name : String
  src_stamps : List String
  agl_dir : String
  work_dir : String
  agl_features : String
  agl_machine : String

/-- AGLBuilder.__init__ (agl.py lines 78 to 100). The seven print statements
on lines 80 to 86 are modelled as a console-output list, one line per print
call in source order; the rendering of non-string arguments (conf, generator,
src_stamps) is abstracted to the label alone. The prints on lines 85 and 86
evaluate the agl_features and agl_machine accessors, so construction fails
there when such a field is present but not scalar. The emission log is
returned unchanged: construction makes no generator call. -/
def AGLBuilder.init (conf : YamlValue) (name : String) (build_dir : String)
    (src_stamps : List String) (gen : List NinjaOp) :
    Except YAMLProcessingError (AGLBuilder × List String × List NinjaOp) :=
  match (conf.get "agl_features" "build").as_str with
  | .error e => .error e
  | .ok pFeats =>
    match (conf.get "agl_machine" "build").as_str with
    | .error e => .error e
    | .ok pMach =>
      let console := ["conf:= ", "name:= " ++ name, "generator:= ", "src_stamps:= ",
                      "build_dir:= " ++ build_dir, "agl_features:= " ++ pFeats,
                      "agl_machine:= " ++ pMach]
      match (conf.get "work_dir" "build").as_str with
      | .error e => .error e
      | .ok work_dir =>
        match (conf.get "agl_features" "build").as_str with
        | .error e => .error e
        | .ok agl_features =>
          match (conf.get "agl_machine" "build").as_str with
          | .error e => .error e
          | .ok agl_machine =>
            .ok (⟨conf, name, src_stamps, build_dir, work_dir, agl_features, agl_machine⟩,
                 console, gen)

/-- The common_variables dictionary built at the start of gen_build
(agl.py lines 104 to 109), in insertion order. -/
def AGLBuilder.common_variables (b : AGLBuilder) : List (String × String) :=
  [("agl_dir", b.agl_dir), ("work_dir", b.work_dir),
   ("agl_features", b.agl_features), ("agl_machine", b.agl_machine)]

/-- Output of the environment-setup edge (agl.py line 112). -/
def AGLBuilder.env_target (b : AGLBuilder) : String :=
  ospj3 b.agl_dir b.work_dir "agl-init-build-env"

/-- AGLBuilder.get_targets (agl.py lines 132 to 137): join agl_dir and
work_dir with each configured image name, preserving order. -/
def AGLBuilder.get_targets (b : AGLBuilder) : Except YAMLProcessingError (List String) :=
  match b.conf.getReq "target_images" with
  | .error e => .error e
  | .ok node =>
    match node.items with
    | .error e => .error e
    | .ok ts => joinAgl b.agl_dir b.work_dir ts
where
  /-- The comprehension over target_images, one joined path per scalar image. -/
  joinAgl (d w : String) : List YamlValue → Except YAMLProcessingError (List String)
    | [] => .ok []
    | t :: ts =>
      match t.as_str with
      | .error e => .error e
      | .ok s =>
        match joinAgl d w ts with
        | .error e => .error e
        | .ok rest => .ok (ospj3 d w s :: rest)

/-- AGLBuilder.gen_build (agl.py lines 102 to 130): register the
environment-setup edge (output env_target, rule agl_init_env, inputs the
Stamp References), a separating newline, then the bitbake edge (outputs the
Target Set, rule agl_build, single input env_target, variables extended with
the required build_target field and the entry name); returns the Target Set.
The setup edge is registered before get_targets and the build_target lookup
run; on a failure the model reports only the error, the partially extended
log being discarded with the aborted run. -/
def AGLBuilder.gen_build (b : AGLBuilder) (gen : List NinjaOp) :
    Except YAMLProcessingError (List String × List NinjaOp) :=
  let gen1 := gen ++ [NinjaOp.build [b.env_target] "agl_init_env" b.src_stamps b.common_variables,
                      NinjaOp.newline]
  match b.get_targets with
  | .error e => .error e
  | .ok targets =>
    match b.conf.getReq "build_target" with
    | .error e => .error e
    | .ok node =>
      match node.as_str with
      | .error e => .error e
      | .ok build_target =>
        .ok (targets,
             gen1 ++ [NinjaOp.build targets "agl_build" [b.env_target]
                        (b.common_variables ++ [("target", build_target), ("name", b.name)])])

/-- AGLBuilder.capture_state (agl.py lines 139 to 143): the body is empty, so
builder and emission log are returned unchanged. -/
def AGLBuilder.capture_state (b : AGLBuilder) (gen : List NinjaOp) :
    AGLBuilder × List NinjaOp := (b, gen)

/-- The Android kernel Builder Variant (android_kernel.py lines 38 to 81). -/
structure AndroidKernel where
  conf : YamlValue
  name : String
  src_stamps : List String
  build_dir : String

/-- AndroidKernel.__init__ (android_kernel.py lines 42 to 48): stores the
arguments; no I/O, no accessor evaluation, and no generator call, so the
emission log is returned unchanged. -/
def AndroidKernel.init (conf : YamlValue) (name : String) (build_dir : String)
    (src_stamps : List String) (gen : List NinjaOp) : AndroidKernel × List NinjaOp :=
  (⟨conf, name, src_stamps, build_dir⟩, gen)

/-- AndroidKernel.get_targets (android_kernel.py lines 72 to 74): join
build_dir with each configured image name, preserving order. -/
def AndroidKernel.get_targets (b : AndroidKernel) : Except YAMLProcessingError (List String) :=
  match b.conf.getReq "target_images" with
  | .error e => .error e
  | .ok node =>
    match node.items with
    | .error e => .error e
    | .ok ts => joinKrn b.build_dir ts
where
  /-- The comprehension over target_images, one joined path per scalar image. -/
  joinKrn (d : String) : List YamlValue → Except YAMLProcessingError (List String)
    | [] => .ok []
    | t :: ts =>
      match t.as_str with
      | .error e => .error e
      | .ok s =>
        match joinKrn d ts with
        | .error e => .error e
        | .ok rest => .ok (ospj d s :: rest)

/-- The env strings collected by gen_build (android_kernel.py lines 53 to 57):
each element of the optional env list rendered as a string; an absent env key
yields the empty list. A present env node is treated as truthy. -/
def AndroidKernel.env_values (b : AndroidKernel) : Except YAMLProcessingError (List String) :=
  match b.conf.find "env" with
  | some env_node =>
    match env_node.items with
    | .error e => .error e
    | .ok xs => strList xs
  | none => .ok []
where
  /-- The comprehension rendering every env element as a string. -/
  strList : List YamlValue → Except YAMLProcessingError (List String)
    | [] => .ok []
    | x :: xs =>
      match x.as_str with
      | .error e => .error e
      | .ok s =>
        match strList xs with
        | .error e => .error e
        | .ok rest => .ok (s :: rest)

/-- AndroidKernel.gen_build (android_kernel.py lines 50 to 70): compose the
env values into one space-joined string, escape it, and register a single
build edge (outputs the Target Set, rule android_kernel_build, inputs the
Stamp References, variables build_dir and env) followed by a newline;
returns the Target Set. -/
def AndroidKernel.gen_build (b : AndroidKernel) (gen : List NinjaOp) :
    Except YAMLProcessingError (List String × List NinjaOp) :=
  match b.env_values with
  | .error e => .error e
  | .ok envs =>
    let env := escape (String.intercalate " " envs)
    match b.get_targets with
    | .error e => .error e
    | .ok targets =>
      .ok (targets,
           gen ++ [NinjaOp.build targets "android_kernel_build" b.src_stamps
                     [("build_dir", b.build_dir), ("env", env)],
                   NinjaOp.newline])

/-- AndroidKernel.capture_state (android_kernel.py lines 76 to 81): the body
is empty, so builder and emission log are returned unchanged. -/
def AndroidKernel.capture_state (b : AndroidKernel) (gen : List NinjaOp) :
    AndroidKernel × List NinjaOp := (b, gen)

deriving instance DecidableEq for Except

/-- Default source mark used for encoded example configurations. -/
def m0 : Mark := ⟨0, 0⟩

/-- Abstract shape of one flattener input entry as the spec describes it:
either a scalar (key, value) pair or a group listing such pairs. -/
inductive ConfEntry where
  | pair (k v : String)
  | group (pairs : List (String × String))

/-- Encode one (key, value) pair as a two-element sequence of scalar nodes. -/
def encodePair (kv : String × String) : YamlValue :=
  .list [.scalar kv.1 m0, .scalar kv.2 m0] m0

/-- Encode one abstract entry as a configuration node. -/
def encodeEntry : ConfEntry → YamlValue
  | .pair k v => encodePair (k, v)
  | .group ps => .list (ps.map encodePair) m0

/-- Encode an abstract entry list as the sequence node handed to the flattener. -/
def encodeConf (es : List ConfEntry) : YamlValue :=
  .list (es.map encodeEntry) m0

/-- Flattening as the spec words it, the specification side of the refinement
claim: the pairs in original order with one level of nesting removed. -/
def specFlatten : List ConfEntry → List (String × String)
  | [] => []
  | .pair k v :: rest => (k, v) :: specFlatten rest
  | .group ps :: rest => ps ++ specFlatten rest

/-- Is the abstract entry a pair or a nonempty group. -/
def entryNonempty : ConfEntry → Bool
  | .pair _ _ => true
  | .group ps => !ps.isEmpty

/-- The mixed grouped/ungrouped flattener input used as an example in the
spec: [[(a,1),(b,2)], (c,3)]. -/
def c3example : List ConfEntry :=
  [.group [("a", "1"), ("b", "2")], .pair "c" "3"]

/-- Build Entry configuration of the C1 counterexample. -/
def c1conf : YamlValue :=
  .mapping [("build_target", .scalar "agl-demo" m0),
            ("target_images", .list [.scalar "img" m0] m0)] m0

/-- AGL builder with one supplied Stamp Reference, for the C1 counterexample. -/
def c1agl : AGLBuilder := ⟨c1conf, "agl", ["/s.stamp"], "/x", "build", "feat", "mach"⟩

/-- Kernel-side Build Entry configuration used by the C1 witness. -/
def c1kconf : YamlValue :=
  .mapping [("target_images", .list [.scalar "k.img" m0] m0)] m0

/-- Kernel builder with one supplied Stamp Reference, for the C1 witness. -/
def c1krn : AndroidKernel := ⟨c1kconf, "krn", ["/k.stamp"], "/out2"⟩

/-- Emission log produced by gen_build on the C1 AGL builder. -/
def c1opsA : List NinjaOp :=
  [.build ["/x/build/agl-init-build-env"] "agl_init_env" ["/s.stamp"]
     [("agl_dir", "/x"), ("work_dir", "build"), ("agl_features", "feat"),
      ("agl_machine", "mach")],
   .newline,
   .build ["/x/build/img"] "agl_build" ["/x/build/agl-init-build-env"]
     [("agl_dir", "/x"), ("work_dir", "build"), ("agl_features", "feat"),
      ("agl_machine", "mach"), ("target", "agl-demo"), ("name", "agl")]]

/-- Emission log produced by gen_build on the C1 kernel builder. -/
def c1opsK : List NinjaOp :=
  [.build ["/out2/k.img"] "android_kernel_build" ["/k.stamp"]
     [("build_dir", "/out2"), ("env", "")],
   .newline]

/-- Build Entry of the end-to-end kernel scenario: env FOO=bar, one target
image boot.img. -/
def c2conf : YamlValue :=
  .mapping [("env", .list [.scalar "FOO=bar" m0] m0),
            ("target_images", .list [.scalar "boot.img" m0] m0)] m0

/-- Kernel builder of the end-to-end scenario: build-root /out and the single
Stamp Reference /out/.fetch.stamp. -/
def c2krn : AndroidKernel := ⟨c2conf, "kernel", ["/out/.fetch.stamp"], "/out"⟩

/-- Emission log expected from the end-to-end kernel scenario. -/
def c2log : List NinjaOp :=
  [.build ["/out/boot.img"] "android_kernel_build" ["/out/.fetch.stamp"]
     [("build_dir", "/out"), ("env", "FOO=bar")],
   .newline]

/-- AGL Build Entry configuration used by the C4 witness. -/
def c4conf : YamlValue :=
  .mapping [("build_target", .scalar "t" m0),
            ("target_images", .list [.scalar "a.img" m0] m0)] m0

/-- AGL builder used by the C4 witness. -/
def c4agl : AGLBuilder := ⟨c4conf, "a4", [], "/x", "build", "f", "m"⟩

/-- Kernel Build Entry configuration used by the C4 witness. -/
def c4kconf : YamlValue :=
  .mapping [("target_images", .list [.scalar "b.img" m0] m0)] m0

/-- Kernel builder used by the C4 witness. -/
def c4krn : AndroidKernel := ⟨c4kconf, "k4", [], "/y"⟩

/-- Emission log produced by gen_build on the C4 AGL builder. -/
def c4opsA : List NinjaOp :=
  [.build ["/x/build/agl-init-build-env"] "agl_init_env" []
     [("agl_dir", "/x"), ("work_dir", "build"), ("agl_features", "f"),
      ("agl_machine", "m")],
   .newline,
   .build ["/x/build/a.img"] "agl_build" ["/x/build/agl-init-build-env"]
     [("agl_dir", "/x"), ("work_dir", "build"), ("agl_features", "f"),
      ("agl_machine", "m"), ("target", "t"), ("name", "a4")]]

/-- Emission log produced by gen_build on the C4 kernel builder. -/
def c4opsK : List NinjaOp :=
  [.build ["/y/b.img"] "android_kernel_build" [] [("build_dir", "/y"), ("env", "")],
   .newline]

/-- Build Entry with none of the optional AGL fields and no required fields,
used for the construction claims. -/
def c5conf : YamlValue := .mapping [] m0

/-- Builder produced by constructing the AGL variant on c5conf. -/
def c5builder : AGLBuilder := ⟨c5conf, "demo", [], "/x", "build", "build", "build"⟩

/-- Console output of constructing the AGL variant on c5conf. -/
def c5console : List String :=
  ["conf:= ", "name:= demo", "generator:= ", "src_stamps:= ", "build_dir:= /x",
   "agl_features:= build", "agl_machine:= build"]

/-- Free-form externally supplied value holding shell-significant characters. -/
def c6taint : String := "a b$c"

/-- AGL Build Entry whose build_target is the tainted string. -/
def c6conf : YamlValue :=
  .mapping [("build_target", .scalar c6taint m0),
            ("target_images", .list [.scalar "img" m0] m0)] m0

/-- AGL builder over the tainted Build Entry. -/
def c6agl : AGLBuilder := ⟨c6conf, "agl", [], "/x", "build", "feat", "mach"⟩

/-- Kernel Build Entry whose env list holds the tainted string. -/
def c6kconf : YamlValue :=
  .mapping [("env", .list [.scalar c6taint m0] m0),
            ("target_images", .list [.scalar "k.img" m0] m0)] m0

/-- Kernel builder over the tainted Build Entry. -/
def c6krn : AndroidKernel := ⟨c6kconf, "krn", [], "/k"⟩

/-- A well-formed pair entry placed before the offending one in the C7 witness. -/
def c7pre : List YamlValue := [encodePair ("a", "1")]

/-- The non-list entry of the C7 witness, with a distinctive mark. -/
def c7bad : YamlValue := .scalar "z" ⟨3, 1⟩

/-- Build Entry configuration used by the C10 witness: both required fields
present, none of the three defaulted fields present. -/
def c10conf : YamlValue :=
  .mapping [("build_target", .scalar "t" m0),
            ("target_images", .list [.scalar "a.img" m0] m0)] m0

/-- Flattening a group of encoded pairs recovers exactly those pairs. -/
theorem flattenGroup_encode (ps : List (String × String)) :
    flattenGroup (ps.map encodePair) = .ok ps := by
  induction ps with
  | nil => rfl
  | cons p ps ih =>
    simp [flattenGroup, encodePair, YamlValue.idx, idxList, YamlValue.as_str, ih]

/-- Cons-shaped restatement of flattenGroup_encode, as rewriting needs it. -/
theorem flattenGroup_encode_cons (p : String × String) (ps : List (String × String)) :
    flattenGroup (YamlValue.list [YamlValue.scalar p.1 m0, YamlValue.scalar p.2 m0] m0
      :: ps.map encodePair) = .ok (p :: ps) := by
  have h := flattenGroup_encode (p :: ps)
  rw [List.map_cons] at h
  exact h

/-- One encoded scalar pair flattens to itself. -/
theorem flattenEntry_encodePair (k v : String) :
    flattenEntry (encodePair (k, v)) = .ok [(k, v)] := rfl

/-- One encoded nonempty group flattens to its member pairs. -/
theorem flattenEntry_encodeGroup (p : String × String) (ps : List (String × String)) :
    flattenEntry (encodeEntry (.group (p :: ps))) = .ok (p :: ps) := by
  show flattenEntry (.list ((p :: ps).map encodePair) m0) = .ok (p :: ps)
  rw [List.map_cons]
  simp [flattenEntry, encodePair, YamlValue.is_list, YamlValue.idx, idxList,
        YamlValue.items, flattenGroup_encode_cons p ps]

/-- The flattening loop agrees with the spec-side flattening on every encoded
entry list whose groups are nonempty. -/
theorem flattenEntries_encode (es : List ConfEntry)
    (h : ∀ e ∈ es, entryNonempty e = true) :
    flattenEntries (es.map encodeEntry) = .ok (specFlatten es) := by
  induction es with
  | nil => rfl
  | cons e es ih =>
    have hrest := ih (fun x hx => h x (List.mem_cons_of_mem e hx))
    cases e with
    | pair k v =>
      simp [flattenEntries, encodeEntry, flattenEntry_encodePair, hrest, specFlatten]
    | group ps =>
      cases ps with
      | nil =>
        have he := h (.group []) (List.mem_cons_self _ es)
        simp [entryNonempty] at he
      | cons p ps2 =>
        simp [flattenEntries, flattenEntry_encodeGroup, hrest, specFlatten]

/-- When some entry of the list cannot be flattened, the whole loop reports an
error: no flattened sequence is returned. -/
theorem flattenEntries_not_ok (l : List YamlValue) (e : YamlValue) (hmem : e ∈ l)
    (he : exceptIsOk (flattenEntry e) = false) :
    exceptIsOk (flattenEntries l) = false := by
  induction l with
  | nil => cases hmem
  | cons x xs ih =>
    rcases List.mem_cons.mp hmem with h | h
    · subst h
      cases hfe : flattenEntry e with
      | error err => simp [flattenEntries, hfe, exceptIsOk]
      | ok r => rw [hfe] at he; simp [exceptIsOk] at he
    · cases hfx : flattenEntry x with
      | error err => simp [flattenEntries, hfx, exceptIsOk]
      | ok ps =>
        have hr := ih h
        cases hrest : flattenEntries xs with
        | error err => simp [flattenEntries, hfx, hrest, exceptIsOk]
        | ok qs => rw [hrest] at hr; simp [exceptIsOk] at hr

/-- A non-sequence entry is rejected with the shape error at its own mark. -/
theorem flattenEntry_not_list (e : YamlValue) (he : e.is_list = false) :
    flattenEntry e = .error ⟨expArrayMsg, e.mark⟩ := by
  simp [flattenEntry, he]

/-- When every earlier entry flattens, the loop stops at the first
non-sequence entry with the shape error at that entry's mark. -/
theorem flattenEntries_first_bad (pre post : List YamlValue) (e : YamlValue)
    (hpre : ∀ x ∈ pre, exceptIsOk (flattenEntry x) = true)
    (he : e.is_list = false) :
    flattenEntries (pre ++ e :: post) = .error ⟨expArrayMsg, e.mark⟩ := by
  induction pre with
  | nil => simp [flattenEntries, flattenEntry_not_list e he]
  | cons x xs ih =>
    have hx := hpre x (List.mem_cons_self x xs)
    cases hfx : flattenEntry x with
    | error err => rw [hfx] at hx; simp [exceptIsOk] at hx
    | ok ps =>
      have hrec := ih (fun y hy => hpre y (List.mem_cons_of_mem x hy))
      simp [flattenEntries, hfx, hrec]

/-- A sequence entry with fewer than two elements, none of them sequences,
cannot be flattened. -/
theorem flattenEntry_short (xs : List YamlValue) (m2 : Mark)
    (hlen : xs.length < 2) (hsc : ∀ x ∈ xs, x.is_list = false) :
    exceptIsOk (flattenEntry (.list xs m2)) = false := by
  cases xs with
  | nil => rfl
  | cons x tail =>
    cases tail with
    | nil =>
      have hx := hsc x (List.mem_cons_self x [])
      cases x with
      | scalar s mk =>
        simp [flattenEntry, YamlValue.is_list, YamlValue.idx, idxList,
              YamlValue.as_str, exceptIsOk]
      | list ys mk => simp [YamlValue.is_list] at hx
      | mapping es mk =>
        simp [flattenEntry, YamlValue.is_list, YamlValue.idx, idxList,
              YamlValue.as_str, YamlValue.mark, exceptIsOk]
    | cons y rest => simp at hlen; omega

/-- C1 counterexample: on a concrete AGL Build Entry with the supplied Stamp
Reference /s.stamp, the registered edge that produces the Target Set (the
agl_build edge) has declared input list [/x/build/agl-init-build-env], which
does not contain the Stamp Reference — so the edge producing the Target Set is
not a superset of the supplied Stamp References, contrary to the claim. -/
theorem C1_counterexample :
    AGLBuilder.gen_build c1agl [] = .ok (["/x/build/img"], c1opsA) ∧
    "/s.stamp" ∉ (["/x/build/agl-init-build-env"] : List String) :=
  ⟨rfl, by decide⟩

/-- C1 (amended): for every successful gen_build run, the Android kernel
variant registers a build edge producing the Target Set whose declared inputs
are exactly the supplied Stamp References; the AGL variant registers a setup
edge whose declared inputs are exactly the Stamp References and whose output
is env_target, and a build edge producing the Target Set whose declared input
list is exactly [env_target] — the Stamp References gate the Target-Set edge
only transitively through the setup edge, not as declared inputs. -/
theorem C1_amended (ba : AGLBuilder) (bk : AndroidKernel) (g1 g2 : List NinjaOp)
    (tsa tsk : List String) (opsA opsK : List NinjaOp)
    (ha : ba.gen_build g1 = .ok (tsa, opsA))
    (hk : bk.gen_build g2 = .ok (tsk, opsK)) :
    (∃ bt, opsA = g1 ++
        [NinjaOp.build [ba.env_target] "agl_init_env" ba.src_stamps ba.common_variables,
         NinjaOp.newline,
         NinjaOp.build tsa "agl_build" [ba.env_target]
           (ba.common_variables ++ [("target", bt), ("name", ba.name)])]) ∧
    (∃ env, opsK = g2 ++
        [NinjaOp.build tsk "android_kernel_build" bk.src_stamps
           [("build_dir", bk.build_dir), ("env", env)],
         NinjaOp.newline]) := by
  constructor
  · simp only [AGLBuilder.gen_build] at ha
    split at ha
    next e heq => exact Except.noConfusion ha
    next ts heq =>
      split at ha
      next e2 heq2 => exact Except.noConfusion ha
      next node heq2 =>
        split at ha
        next e3 heq3 => exact Except.noConfusion ha
        next bt heq3 =>
          simp only [Except.ok.injEq, Prod.mk.injEq] at ha
          obtain ⟨hts, hops⟩ := ha
          subst hts
          refine ⟨bt, ?_⟩
          rw [← hops]
          simp
  · simp only [AndroidKernel.gen_build] at hk
    split at hk
    next e heq => exact Except.noConfusion hk
    next envs heq =>
      split at hk
      next e2 heq2 => exact Except.noConfusion hk
      next ts heq2 =>
        simp only [Except.ok.injEq, Prod.mk.injEq] at hk
        obtain ⟨hts, hops⟩ := hk
        subst hts
        exact ⟨escape (String.intercalate " " envs), hops.symm⟩

/-- Witness for C1_amended at concrete AGL and kernel builders. -/
theorem C1_amended_witness :
    (∃ bt, c1opsA = ([] : List NinjaOp) ++
        [NinjaOp.build [c1agl.env_target] "agl_init_env" c1agl.src_stamps
           c1agl.common_variables,
         NinjaOp.newline,
         NinjaOp.build ["/x/build/img"] "agl_build" [c1agl.env_target]
           (c1agl.common_variables ++ [("target", bt), ("name", c1agl.name)])]) ∧
    (∃ env, c1opsK = ([] : List NinjaOp) ++
        [NinjaOp.build ["/out2/k.img"] "android_kernel_build" c1krn.src_stamps
           [("build_dir", c1krn.build_dir), ("env", env)],
         NinjaOp.newline]) :=
  C1_amended c1agl c1krn [] [] ["/x/build/img"] ["/out2/k.img"] c1opsA c1opsK rfl rfl

/-- C2: on the kernel Build Entry with env [FOO=bar], target images
[boot.img], build-root /out and the single Stamp Reference /out/.fetch.stamp,
gen_build registers exactly one build edge, with output /out/boot.img, with
the composed env variable equal to the single string FOO=bar, and with the
Stamp Reference in its input list. -/
theorem C2_kernel_scenario :
    AndroidKernel.gen_build c2krn [] = .ok (["/out/boot.img"], c2log) ∧
    (c2log.filter isBuildEdge).length = 1 ∧
    c2log = [NinjaOp.build ["/out/boot.img"] "android_kernel_build" ["/out/.fetch.stamp"]
               [("build_dir", "/out"), ("env", "FOO=bar")],
             NinjaOp.newline] :=
  ⟨rfl, rfl, rfl⟩

/-- C3 counterexample: an entry that is an empty group — a list of zero
(key, value) pairs — makes the flattener raise an indexing error instead of
contributing nothing, so flattening does not return the flattened sequence
the claim promises for every list of pair groups. -/
theorem C3_counterexample :
    flatten_yocto_conf (encodeConf [ConfEntry.group []]) =
      .error ⟨"Index out of range", m0⟩ ∧
    specFlatten [ConfEntry.group []] = [] :=
  ⟨rfl, rfl⟩

/-- C3 (amended): for every configuration list whose entries are each either a
scalar (key, value) pair or a nonempty list of such pairs, flattening returns
exactly the spec-side flattening — the pairs as strings in original order with
one level of nesting removed, duplicates preserved; the empty input yields the
empty sequence. -/
theorem C3_amended (es : List ConfEntry) (h : ∀ e ∈ es, entryNonempty e = true) :
    flatten_yocto_conf (encodeConf es) = .ok (specFlatten es) := by
  have henc := flattenEntries_encode es h
  simp [flatten_yocto_conf, encodeConf, YamlValue.items, henc]

/-- Witness for C3_amended at the mixed grouped/ungrouped example input. -/
theorem C3_amended_witness :
    flatten_yocto_conf (encodeConf c3example) = .ok [("a", "1"), ("b", "2"), ("c", "3")] :=
  C3_amended c3example (by decide)

/-- C4: get_targets is a pure function of the builder value — in this
embedding it neither receives nor extends the emission log, so calling it
twice, or before or after gen_build, structurally returns the same sequence —
and on every successful gen_build run of either variant the Target Set that
gen_build returns is exactly the sequence get_targets returns. -/
theorem C4_get_targets_agree (ba : AGLBuilder) (bk : AndroidKernel) (g1 g2 : List NinjaOp)
    (tsa tsk : List String) (opsA opsK : List NinjaOp)
    (ha : ba.gen_build g1 = .ok (tsa, opsA))
    (hk : bk.gen_build g2 = .ok (tsk, opsK)) :
    ba.get_targets = .ok tsa ∧ bk.get_targets = .ok tsk := by
  constructor
  · simp only [AGLBuilder.gen_build] at ha
    split at ha
    next e heq => exact Except.noConfusion ha
    next ts heq =>
      split at ha
      next e2 heq2 => exact Except.noConfusion ha
      next node heq2 =>
        split at ha
        next e3 heq3 => exact Except.noConfusion ha
        next bt heq3 =>
          simp only [Except.ok.injEq, Prod.mk.injEq] at ha
          rw [heq, ha.1]
  · simp only [AndroidKernel.gen_build] at hk
    split at hk
    next e heq => exact Except.noConfusion hk
    next envs heq =>
      split at hk
      next e2 heq2 => exact Except.noConfusion hk
      next ts heq2 =>
        simp only [Except.ok.injEq, Prod.mk.injEq] at hk
        rw [heq2, hk.1]

/-- Witness for C4_get_targets_agree at concrete AGL and kernel builders. -/
theorem C4_get_targets_agree_witness :
    AGLBuilder.get_targets c4agl = .ok ["/x/build/a.img"] ∧
    AndroidKernel.get_targets c4krn = .ok ["/y/b.img"] :=
  C4_get_targets_agree c4agl c4krn [] [] ["/x/build/a.img"] ["/y/b.img"]
    c4opsA c4opsK rfl rfl

/-- C5 counterexample: AGL construction on a concrete Build Entry succeeds
while emitting a nonempty console-output list (the print statements of
agl.py lines 80 to 86), so construction does perform I/O; and the kernel
variant constructed on a Build Entry lacking the required target_images field
succeeds, while get_targets on the constructed instance fails — required
fields are not validated fail-fast at construction. -/
theorem C5_counterexample :
    Except.map (fun x => x.2.1) (AGLBuilder.init c5conf "demo" "/x" [] []) = .ok c5console ∧
    c5console ≠ [] ∧
    (AndroidKernel.init c5conf "krn" "/out" [] []).2 = [] ∧
    exceptIsOk ((AndroidKernel.init c5conf "krn" "/out" [] []).1.get_targets) = false :=
  ⟨rfl, by decide, rfl, rfl⟩

/-- C5 (amended): construction of either variant registers no rule or edge
with the Graph Emission Contract (the emission log is returned unchanged);
AGL construction additionally performs console print I/O (seven lines, one
per print statement); required fields are validated only when
gen_build or get_targets runs, not at construction. -/
theorem C5_amended (conf : YamlValue) (name bd : String) (stamps : List String)
    (gen : List NinjaOp) (b : AGLBuilder) (console : List String) (genOut : List NinjaOp)
    (h : AGLBuilder.init conf name bd stamps gen = .ok (b, console, genOut)) :
    genOut = gen ∧ console.length = 7 ∧
    (AndroidKernel.init conf name bd stamps gen).2 = gen := by
  simp only [AGLBuilder.init] at h
  split at h
  next e heq => exact Except.noConfusion h
  next pf heq =>
    split at h
    next e2 heq2 => exact Except.noConfusion h
    next pm heq2 =>
      split at h
      next e3 heq3 => exact Except.noConfusion h
      next wd heq3 =>
        split at h
        next e4 heq4 => exact Except.noConfusion h
        next af heq4 =>
          split at h
          next e5 heq5 => exact Except.noConfusion h
          next am heq5 =>
            simp only [Except.ok.injEq, Prod.mk.injEq] at h
            obtain ⟨hb, hc, hg⟩ := h
            refine ⟨hg.symm, ?_, rfl⟩
            rw [← hc]
            rfl

/-- Witness for C5_amended at a concrete successful AGL construction. -/
theorem C5_amended_witness :
    ([] : List NinjaOp) = [] ∧ c5console.length = 7 ∧
    (AndroidKernel.init c5conf "demo" "/x" [] []).2 = [] :=
  C5_amended c5conf "demo" "/x" [] [] c5builder c5console [] rfl

/-- C6: the AGL variant embeds the externally supplied build_target value into
the agl_build edge's rule variables verbatim, with no escaping, even when the
value holds shell-significant characters that the escaper would quote (the
escaper provably changes it); by contrast the kernel variant passes its
composed env value through the escaper. -/
theorem C6_unescaped_variables :
    AGLBuilder.gen_build c6agl [] =
      .ok (["/x/build/img"],
           [NinjaOp.build ["/x/build/agl-init-build-env"] "agl_init_env" []
              [("agl_dir", "/x"), ("work_dir", "build"), ("agl_features", "feat"),
               ("agl_machine", "mach")],
            NinjaOp.newline,
            NinjaOp.build ["/x/build/img"] "agl_build" ["/x/build/agl-init-build-env"]
              [("agl_dir", "/x"), ("work_dir", "build"), ("agl_features", "feat"),
               ("agl_machine", "mach"), ("target", c6taint), ("name", "agl")]]) ∧
    escape c6taint ≠ c6taint ∧
    AndroidKernel.gen_build c6krn [] =
      .ok (["/k/k.img"],
           [NinjaOp.build ["/k/k.img"] "android_kernel_build" []
              [("build_dir", "/k"), ("env", "a\\ b\\$c")],
            NinjaOp.newline]) :=
  ⟨rfl, by decide, rfl⟩

/-- C7: a flattener input containing a non-sequence entry never yields a
flattened sequence; and when every entry before the non-sequence entry is
itself flattenable, the reported error is the configuration-shape error
carrying the offending entry's own source mark. -/
theorem C7_nonlist_entry_rejected (pre post : List YamlValue) (e : YamlValue) (m : Mark)
    (he : e.is_list = false) :
    exceptIsOk (flatten_yocto_conf (.list (pre ++ e :: post) m)) = false ∧
    ((∀ x ∈ pre, exceptIsOk (flattenEntry x) = true) →
      flatten_yocto_conf (.list (pre ++ e :: post) m) = .error ⟨expArrayMsg, e.mark⟩) := by
  constructor
  · have hmem : e ∈ pre ++ e :: post := by simp
    have hbad : exceptIsOk (flattenEntry e) = false := by
      rw [flattenEntry_not_list e he]
      rfl
    have hall := flattenEntries_not_ok (pre ++ e :: post) e hmem hbad
    simpa [flatten_yocto_conf, YamlValue.items] using hall
  · intro hpre
    have hfb := flattenEntries_first_bad pre post e hpre he
    simpa [flatten_yocto_conf, YamlValue.items] using hfb

/-- Witness for C7_nonlist_entry_rejected: a scalar entry after one
well-formed pair entry is rejected with the shape error at mark (3, 1). -/
theorem C7_nonlist_entry_rejected_witness :
    flatten_yocto_conf (YamlValue.list (c7pre ++ c7bad :: []) m0) =
      .error ⟨expArrayMsg, Mark.mk 3 1⟩ :=
  (C7_nonlist_entry_rejected c7pre [] c7bad m0 (by decide)).2 (by decide)

/-- C8: a flattener input containing a sequence entry with fewer than two
elements, all of them scalars (more precisely, none of them sequences), never
yields a flattened sequence. -/
theorem C8_short_entry_rejected (pre post xs : List YamlValue) (m m2 : Mark)
    (hlen : xs.length < 2) (hsc : ∀ x ∈ xs, x.is_list = false) :
    exceptIsOk (flatten_yocto_conf (.list (pre ++ .list xs m2 :: post) m)) = false := by
  have hbad := flattenEntry_short xs m2 hlen hsc
  have hmem : (YamlValue.list xs m2) ∈ pre ++ .list xs m2 :: post := by simp
  have hall := flattenEntries_not_ok _ _ hmem hbad
  simpa [flatten_yocto_conf, YamlValue.items] using hall

/-- Witness for C8_short_entry_rejected: a one-element scalar entry. -/
theorem C8_short_entry_rejected_witness :
    exceptIsOk (flatten_yocto_conf (YamlValue.list
      ([] ++ YamlValue.list [YamlValue.scalar "k" m0] m0 :: []) m0)) = false :=
  C8_short_entry_rejected [] [] [YamlValue.scalar "k" m0] m0 m0 (by decide) (by decide)

/-- C9: capture_state of either variant is observably a no-op: it changes no
builder field and registers nothing with the Graph Emission Contract. -/
theorem C9_capture_state_noop (ba : AGLBuilder) (bk : AndroidKernel)
    (g1 g2 : List NinjaOp) :
    ba.capture_state g1 = (ba, g1) ∧ bk.capture_state g2 = (bk, g2) :=
  ⟨rfl, rfl⟩

/-- C10: when work_dir, agl_features and agl_machine are all absent from the
Build Entry, AGL construction succeeds, silently substituting the default
string build for each of the three fields, and the rule-variable map and the
setup-edge path later used by gen_build, as well as the work directory used
for target paths, are computed from those defaults. -/
theorem C10_default_fields (conf : YamlValue) (name bd : String) (stamps : List String)
    (gen : List NinjaOp)
    (h1 : conf.find "work_dir" = none) (h2 : conf.find "agl_features" = none)
    (h3 : conf.find "agl_machine" = none) :
    AGLBuilder.init conf name bd stamps gen =
      .ok (⟨conf, name, stamps, bd, "build", "build", "build"⟩,
           ["conf:= ", "name:= " ++ name, "generator:= ", "src_stamps:= ",
            "build_dir:= " ++ bd, "agl_features:= build", "agl_machine:= build"],
           gen) ∧
    AGLBuilder.common_variables ⟨conf, name, stamps, bd, "build", "build", "build"⟩ =
      [("agl_dir", bd), ("work_dir", "build"), ("agl_features", "build"),
       ("agl_machine", "build")] ∧
    AGLBuilder.env_target ⟨conf, name, stamps, bd, "build", "build", "build"⟩ =
      ospj (ospj bd "build") "agl-init-build-env" := by
  refine ⟨?_, rfl, rfl⟩
  simp [AGLBuilder.init, YamlValue.get, h1, h2, h3, YamlValue.as_str]

/-- Witness for C10_default_fields at a Build Entry with only the two
required fields present. -/
theorem C10_default_fields_witness :
    AGLBuilder.init c10conf "demo" "/x" [] [] =
      .ok (⟨c10conf, "demo", [], "/x", "build", "build", "build"⟩,
           ["conf:= ", "name:= " ++ "demo", "generator:= ", "src_stamps:= ",
            "build_dir:= " ++ "/x", "agl_features:= build", "agl_machine:= build"],
           []) ∧
    AGLBuilder.common_variables ⟨c10conf, "demo", [], "/x", "build", "build", "build"⟩ =
      [("agl_dir", "/x"), ("work_dir", "build"), ("agl_features", "build"),
       ("agl_machine", "build")] ∧
    AGLBuilder.env_target ⟨c10conf, "demo", [], "/x", "build", "build", "build"⟩ =
      ospj (ospj "/x" "build") "agl-init-build-env" :=
  C10_default_fields c10conf "demo" "/x" [] [] rfl rfl rfl

end Moulin
